import Mathlib

/-!
Shallow embedding of the RaceChrono BLE DIY device library
(src/lib/esp32_racechrono.cpp / .hpp) and proofs about its Monitor
protocol engine, Equation value model and CAN-spoof encoder.

Bytes are modelled as `Nat` (with explicit `% 256` where the C++ code
truncates to `uint8_t`), 32-bit signed integers as `Int` restricted by
hypotheses, and `float` values as exact rationals (`ℚ`), with the `NAN`
"no data" sentinel modelled by an explicit constructor.

The external BLE transport and timer facility are modelled at their
interface boundary: an environment records the connected-peer count, the
single pending timer deadline, and the byte payloads actually delivered
on the config (indicate) and CAN-spoof main (notify) channels.
-/

namespace ESP32RaceChrono

/-- Timer constants from the header (milliseconds). -/
def TIMEOUT_REFRESH_MS : Nat := 1500

def TIMEOUT_RESET_MS : Nat := 3000

def TIMEOUT_INIT_MS : Nat := 1000

/-- The reserved invalid-value sentinel, `INT32_MAX` = 0x7FFFFFFF. -/
def INT32_MAX : Int := 2147483647

/-- Model of a C `float` cell that is either `NAN` (no data) or a number.
Numeric values are modelled exactly as rationals. -/
inductive FloatVal where
  | NoData : FloatVal
  | Val : ℚ → FloatVal
deriving DecidableEq, Repr

/-- `ESP32RaceChrono::Equation`: expression text (a byte list), the
precomputed `scale_inv = 1/scale`, and the current value. -/
structure Equation where
  scale_inv : ℚ
  equation : List Nat
  value : FloatVal
deriving DecidableEq, Repr

/-- The `Equation(equation, scale)` constructor: stores `1/scale` and
initialises `value` to `NAN` (no data). -/
def Equation.make (text : List Nat) (scale : ℚ) : Equation :=
  { scale_inv := 1 / scale, equation := text, value := .NoData }

/-- `Equation::update_from_raw`: `value = (raw == INT32_MAX) ? NAN
: (float)raw * scale_inv`. -/
def Equation.update_from_raw (eq : Equation) (raw : Int) : Equation :=
  { eq with value := if raw = INT32_MAX then .NoData else .Val ((raw : ℚ) * eq.scale_inv) }

/-- `Equation::clear()`: `value = NAN`. -/
def Equation.clear (eq : Equation) : Equation :=
  { eq with value := .NoData }

/-- `impl::monitor_state_t`. -/
inductive monitor_state_t where
  | UNINITIALIZED : monitor_state_t
  | STARTED : monitor_state_t
  | ACTIVE : monitor_state_t
  | FORCED_REFRESH : monitor_state_t
deriving DecidableEq, Repr

/-- The Monitor engine's own mutable state: the ordered equation list
`eqs` and the session state. -/
structure Monitor where
  eqs : List Equation
  state : monitor_state_t
deriving DecidableEq, Repr

/-- Environment: the external BLE transport and timer facility, modelled
at their interface boundary. `timerDeadline` is the single pending
deadline (re-arming replaces it); `sentConfig` / `sentMain` log the
payloads delivered on the Monitor config channel (indicate) and the
CAN-spoof main channel (notify). -/
structure BLEEnv where
  connectedCount : Nat
  timerDeadline : Option Nat
  sentConfig : List (List Nat)
  sentMain : List (List Nat)
deriving DecidableEq, Repr

/-- Modelled from the spec: the transport adapter's acknowledged send
("indicate") on the config characteristic.  Delivery only happens to
connected peers; with no peer connected nothing is transmitted
(spec §7: "every outbound attempt degrades to a silent no-op"). -/
def indicate (env : BLEEnv) (payload : List Nat) : BLEEnv :=
  if env.connectedCount = 0 then env
  else { env with sentConfig := env.sentConfig ++ [payload] }

/-- The transport adapter's unacknowledged send ("notify") on the
CAN-spoof main characteristic. -/
def notify (env : BLEEnv) (payload : List Nat) : BLEEnv :=
  { env with sentMain := env.sentMain ++ [payload] }

/-- `Monitor::timeout_reset(bool update_state)`: in any of the three
running states, re-arm the timer at `TIMEOUT_REFRESH_MS` and, when
`update_state`, set the state to `ACTIVE`.  (The C++ `switch` has no
`UNINITIALIZED` case, so that state does nothing.) -/
def timeout_reset (m : Monitor) (env : BLEEnv) (update_state : Bool) : Monitor × BLEEnv :=
  match m.state with
  | .STARTED | .ACTIVE | .FORCED_REFRESH =>
      ({ m with state := if update_state then .ACTIVE else m.state },
       { env with timerDeadline := some TIMEOUT_REFRESH_MS })
  | .UNINITIALIZED => (m, env)

/-- The inner chunking loop of `Monitor::configure_equations` for one
equation: `for (int i = 0; i < equation_len; i += 17)`.  A chunk is
`kind :: eq_idx :: seq :: fragment` where kind 2 carries exactly 17 text
bytes (`payload_len = 20`) and kind 3 carries the `equation_len - i`
remaining bytes.  `eq_idx` and the sequence counter are `uint8_t`,
hence the `% 256`. -/
def eqChunksAux (eq_idx : Nat) (text : List Nat) (i seq : Nat) : List (List Nat) :=
  if _h : i < text.length then
    (if text.length - i > 17 then
        2 :: eq_idx % 256 :: seq % 256 :: (text.drop i).take 17
      else
        3 :: eq_idx % 256 :: seq % 256 :: text.drop i)
    :: eqChunksAux eq_idx text (i + 17) (seq + 1)
  else []
termination_by text.length - i

/-- All chunks sent by `configure_equations`: equations in list order,
each chunked from offset 0 with sequence number 0. -/
def allChunks (eqs : List Equation) : List (List Nat) :=
  (eqs.enum.map (fun p => eqChunksAux p.1 p.2.equation 0 0)).flatten

/-- `Monitor::configure_equations()`: if nobody is connected, only
re-arm the timer (`timeout_reset(false)`); otherwise indicate every
chunk of every equation and then `timeout_reset(false)`. -/
def configure_equations (m : Monitor) (env : BLEEnv) : Monitor × BLEEnv :=
  if env.connectedCount = 0 then
    timeout_reset m env false
  else
    timeout_reset m ((allChunks m.eqs).foldl indicate env) false

/-- `Monitor::update_all()`: indicate the single-byte Update-all
command `[4]` (no connected-peer check in the engine itself). -/
def update_all (env : BLEEnv) : BLEEnv :=
  indicate env [4]

/-- `Monitor::reset()`: if a peer is connected, indicate the Reset
command `[0]`; then set state to `STARTED` and re-run
`configure_equations`.  NOTE: the C++ loop `for (auto eq : eqs)
\x7b eq.clear(); \x7d` iterates over by-value copies of each `Equation`, so
`clear()` mutates the copy and the stored equation values are left
unchanged; the model reflects that. -/
def reset (m : Monitor) (env : BLEEnv) : Monitor × BLEEnv :=
  let env1 := if 0 < env.connectedCount then indicate env [0] else env
  configure_equations { m with state := .STARTED } env1

/-- `Monitor::data_valid()`: `state == ACTIVE || state == FORCED_REFRESH`. -/
def data_valid (m : Monitor) : Bool :=
  match m.state with
  | .ACTIVE | .FORCED_REFRESH => true
  | _ => false

/-- `Monitor::timeout_state()`: the timer-expiry transition.
`STARTED`: arm `TIMEOUT_INIT_MS` then re-run `configure_equations`;
`ACTIVE`: arm `TIMEOUT_RESET_MS - TIMEOUT_REFRESH_MS`, go to
`FORCED_REFRESH`, send Update-all; `FORCED_REFRESH`: `reset()`;
no case for `UNINITIALIZED`. -/
def timeout_state (m : Monitor) (env : BLEEnv) : Monitor × BLEEnv :=
  match m.state with
  | .STARTED =>
      configure_equations m { env with timerDeadline := some TIMEOUT_INIT_MS }
  | .ACTIVE =>
      ({ m with state := .FORCED_REFRESH },
       update_all { env with timerDeadline := some (TIMEOUT_RESET_MS - TIMEOUT_REFRESH_MS) })
  | .FORCED_REFRESH => reset m env
  | .UNINITIALIZED => (m, env)

/-- Two's-complement reinterpretation of a natural number as a 32-bit
signed integer (the `int val_raw` the decode loop builds). -/
def toInt32 (n : Nat) : Int :=
  if n % 2 ^ 32 < 2 ^ 31 then ((n % 2 ^ 32 : Nat) : Int)
  else ((n % 2 ^ 32 : Nat) : Int) - 2 ^ 32

/-- `impl::MonConfigCallbacks::onWrite`: on a 2-byte payload whose first
byte is 0, call `timeout_reset()` (with its default `update_state =
true`); otherwise do nothing. -/
def monConfigOnWrite (m : Monitor) (env : BLEEnv) (payload : List Nat) : Monitor × BLEEnv :=
  if payload.length = 2 ∧ payload.getD 0 0 = 0 then timeout_reset m env true
  else (m, env)

/-- The decode loop of `impl::MonNotifyCallbacks::onWrite`:
`for (int i = 0; i < length; i += 5)` reads `raw[i] .. raw[i+4]`
(`uint8 ID, int32 big-endian value`) and calls
`eqs[monitor_id].update_from_raw(val_raw)`.  Reading past the end of
the payload, or indexing `eqs` out of bounds (`std::vector::operator[]`
is unchecked), is undefined behaviour in the C++ and is modelled as
`none`. -/
def decodeLoop (eqs : List Equation) (payload : List Nat) (i : Nat) : Option (List Equation) :=
  if _h : i < payload.length then
    match payload[i]?, payload[i + 1]?, payload[i + 2]?, payload[i + 3]?, payload[i + 4]? with
    | some b0, some b1, some b2, some b3, some b4 =>
        let monitor_id := b0
        let val_raw := toInt32 (b1 <<< 24 ||| b2 <<< 16 ||| b3 <<< 8 ||| b4)
        if hm : monitor_id < eqs.length then
          decodeLoop (eqs.set monitor_id (eqs[monitor_id].update_from_raw val_raw)) payload (i + 5)
        else none
    | _, _, _, _, _ => none
  else some eqs
termination_by payload.length - i

/-- `impl::MonNotifyCallbacks::onWrite`: run the decode loop, then call
`timeout_reset()` (default `update_state = true`).  `none` propagates
the modelled undefined behaviour of the decode loop. -/
def monNotifyOnWrite (m : Monitor) (env : BLEEnv) (payload : List Nat) :
    Option (Monitor × BLEEnv) :=
  match decodeLoop m.eqs payload 0 with
  | none => none
  | some eqs2 => some (timeout_reset { m with eqs := eqs2 } env true)

/-- `CANSpoof::update(uint32_t id, uint8_t data)`: no-op if nobody is
connected; otherwise notify the 5-byte frame with `id` little-endian in
bytes 0–3 and `data` in byte 4. -/
def canspoof_update (env : BLEEnv) (id data : Nat) : BLEEnv :=
  if env.connectedCount = 0 then env
  else notify env
    [(id >>> 0) % 256, (id >>> 8) % 256, (id >>> 16) % 256, (id >>> 24) % 256, data % 256]

/-- The fragmentation contract asserted by claim C4 for a chunk list
`cs` carrying an expression `text`: reassembling the ≤17-byte fragments
in sequence-number order (which is emission order, the sequence bytes
being `0, 1, 2, …`) reproduces `text` exactly, and when at least one
chunk exists the last and only the last has kind byte 3, the others
kind byte 2.  The `text.length = 0 → cs = []` component records the
correction: an empty expression emits no chunk at all. -/
def ChunkSpec (cs : List (List Nat)) (text : List Nat) : Prop :=
  ((cs.map (fun c => c.drop 3)).flatten = text)
  ∧ (∀ c ∈ cs, (c.drop 3).length ≤ 17)
  ∧ (cs.map (fun c => c.getD 2 0) = List.range cs.length)
  ∧ (text.length = 0 → cs = [])
  ∧ (text.length ≠ 0 →
      cs.map (fun c => c.getD 0 0) = List.replicate (cs.length - 1) 2 ++ [3]
      ∧ 1 ≤ cs.length)

/-! ### Properties of the chunking loop -/

/-- Concatenating the text fragments (bytes 3..) of the chunks emitted
from offset `i` recovers the expression text from offset `i`. -/
theorem eqChunksAux_join (idx : Nat) (text : List Nat) (i seq : Nat) :
    ((eqChunksAux idx text i seq).map (fun c => c.drop 3)).flatten = text.drop i := by
  induction i, seq using eqChunksAux.induct idx text with
  | case1 i seq h ih =>
      rw [eqChunksAux, dif_pos h]
      by_cases h17 : text.length - i > 17
      · rw [if_pos h17]
        simp only [List.map_cons, List.flatten_cons, List.drop_succ_cons, List.drop_zero]
        rw [ih, ← List.drop_drop 17 i text, List.take_append_drop]
      · rw [if_neg h17]
        simp only [List.map_cons, List.flatten_cons, List.drop_succ_cons, List.drop_zero]
        rw [ih]
        have hnil : text.drop (i + 17) = [] := List.drop_eq_nil_of_le (by omega)
        simp [hnil]
  | case2 i seq h =>
      rw [eqChunksAux, dif_neg h]
      have hnil : text.drop i = [] := List.drop_eq_nil_of_le (by omega)
      simp [hnil]

/-- The number of chunks emitted from offset `i` is
`⌈(text.length - i) / 17⌉`. -/
theorem eqChunksAux_length (idx : Nat) (text : List Nat) (i seq : Nat) :
    (eqChunksAux idx text i seq).length = (text.length - i + 16) / 17 := by
  induction i, seq using eqChunksAux.induct idx text with
  | case1 i seq h ih =>
      rw [eqChunksAux, dif_pos h]
      simp only [List.length_cons, ih]
      omega
  | case2 i seq h =>
      rw [eqChunksAux, dif_neg h]
      simp only [List.length_nil]
      omega

/-- When at least one chunk is emitted, the kind bytes are `2` on every
chunk except the last, which is `3`. -/
theorem eqChunksAux_kinds (idx : Nat) (text : List Nat) (i seq : Nat) (h0 : i < text.length) :
    (eqChunksAux idx text i seq).map (fun c => c.getD 0 0)
      = List.replicate ((eqChunksAux idx text i seq).length - 1) 2 ++ [3] := by
  induction i, seq using eqChunksAux.induct idx text with
  | case1 i seq h ih =>
      rw [eqChunksAux, dif_pos h]
      by_cases h17 : text.length - i > 17
      · rw [if_pos h17]
        have hlt : i + 17 < text.length := by omega
        have hlen : 1 ≤ (eqChunksAux idx text (i + 17) (seq + 1)).length := by
          rw [eqChunksAux_length]; omega
        simp only [List.length_cons, List.map_cons, List.getD_cons_zero, ih hlt]
        rw [show (eqChunksAux idx text (i + 17) (seq + 1)).length + 1 - 1
              = ((eqChunksAux idx text (i + 17) (seq + 1)).length - 1) + 1 by omega]
        rw [List.replicate_succ]
        simp
      · rw [if_neg h17]
        have hnil : eqChunksAux idx text (i + 17) (seq + 1) = [] := by
          rw [eqChunksAux, dif_neg (by omega)]
        simp [hnil]
  | case2 i seq h => omega

/-- The sequence bytes of the chunks emitted starting at counter `seq`
are `seq % 256, (seq+1) % 256, …` in emission order. -/
theorem eqChunksAux_seqs (idx : Nat) (text : List Nat) (i seq : Nat) :
    (eqChunksAux idx text i seq).map (fun c => c.getD 2 0)
      = (List.range' seq (eqChunksAux idx text i seq).length).map (fun s => s % 256) := by
  induction i, seq using eqChunksAux.induct idx text with
  | case1 i seq h ih =>
      rw [eqChunksAux, dif_pos h]
      by_cases h17 : text.length - i > 17
      · rw [if_pos h17]
        simp only [List.map_cons, List.length_cons, List.range'_succ, ih]
        simp
      · rw [if_neg h17]
        simp only [List.map_cons, List.length_cons, List.range'_succ, ih]
        simp
  | case2 i seq h =>
      rw [eqChunksAux, dif_neg h]
      simp

/-- Every chunk carries at most 17 text bytes. -/
theorem eqChunksAux_frag_le (idx : Nat) (text : List Nat) (i seq : Nat) :
    ∀ c ∈ eqChunksAux idx text i seq, (c.drop 3).length ≤ 17 := by
  induction i, seq using eqChunksAux.induct idx text with
  | case1 i seq h ih =>
      rw [eqChunksAux, dif_pos h]
      intro c hc
      rcases List.mem_cons.mp hc with hc | hc
      · subst hc
        by_cases h17 : text.length - i > 17
        · rw [if_pos h17]
          simp only [List.drop_succ_cons, List.drop_zero, List.length_take]
          omega
        · rw [if_neg h17]
          simp only [List.drop_succ_cons, List.drop_zero, List.length_drop]
          omega
      · exact ih c hc
  | case2 i seq h =>
      rw [eqChunksAux, dif_neg h]
      intro c hc
      simp at hc

/-! ### Transport and timer helper lemmas -/

theorem indicate_of_zero (env : BLEEnv) (payload : List Nat)
    (h : env.connectedCount = 0) : indicate env payload = env := by
  simp [indicate, h]

theorem indicate_of_pos (env : BLEEnv) (payload : List Nat)
    (h : env.connectedCount ≠ 0) :
    indicate env payload = { env with sentConfig := env.sentConfig ++ [payload] } := by
  simp [indicate, h]

theorem foldl_indicate (cs : List (List Nat)) (env : BLEEnv)
    (h : env.connectedCount ≠ 0) :
    cs.foldl indicate env = { env with sentConfig := env.sentConfig ++ cs } := by
  induction cs generalizing env with
  | nil => simp
  | cons c cs ih =>
      rw [List.foldl_cons, indicate_of_pos env c h,
        ih { env with sentConfig := env.sentConfig ++ [c] } h]
      simp

theorem foldl_indicate_of_zero (cs : List (List Nat)) (env : BLEEnv)
    (h : env.connectedCount = 0) :
    cs.foldl indicate env = env := by
  induction cs with
  | nil => rfl
  | cons c cs ih => rw [List.foldl_cons, indicate_of_zero env c h, ih]

/-- `timeout_reset` in any state other than `UNINITIALIZED` re-arms the
timer at `TIMEOUT_REFRESH_MS` and sets the state to `ACTIVE` exactly
when `update_state` holds. -/
theorem timeout_reset_of_ne (m : Monitor) (env : BLEEnv) (u : Bool)
    (hs : m.state ≠ .UNINITIALIZED) :
    timeout_reset m env u
      = ({ m with state := if u then .ACTIVE else m.state },
         { env with timerDeadline := some TIMEOUT_REFRESH_MS }) := by
  obtain ⟨eqs, st⟩ := m
  cases st <;> simp_all [timeout_reset]

/-- `timeout_reset` never touches the equation list, the transport logs
or the connected-peer count. -/
theorem timeout_reset_frame (m : Monitor) (env : BLEEnv) (u : Bool) :
    (timeout_reset m env u).1.eqs = m.eqs
    ∧ (timeout_reset m env u).2.sentConfig = env.sentConfig
    ∧ (timeout_reset m env u).2.sentMain = env.sentMain
    ∧ (timeout_reset m env u).2.connectedCount = env.connectedCount := by
  obtain ⟨eqs, st⟩ := m
  cases st <;> simp [timeout_reset]

/-- `configure_equations` with a connected peer and a running session:
all chunks of all equations are delivered on the config channel and the
timer ends up armed at `TIMEOUT_REFRESH_MS`; the monitor is unchanged. -/
theorem configure_equations_of_pos (m : Monitor) (env : BLEEnv)
    (hc : env.connectedCount ≠ 0) (hs : m.state ≠ .UNINITIALIZED) :
    configure_equations m env
      = (m, { env with sentConfig := env.sentConfig ++ allChunks m.eqs,
                       timerDeadline := some TIMEOUT_REFRESH_MS }) := by
  rw [configure_equations, if_neg hc, foldl_indicate _ _ hc,
    timeout_reset_of_ne _ _ _ hs]
  simp

theorem allChunks_singleton (eq : Equation) :
    allChunks [eq] = eqChunksAux 0 eq.equation 0 0 := by
  simp [allChunks]

/-- `configure_equations` with no peer connected only re-runs
`timeout_reset(false)`. -/
theorem configure_equations_of_zero (m : Monitor) (env : BLEEnv)
    (hc : env.connectedCount = 0) :
    configure_equations m env = timeout_reset m env false := by
  rw [configure_equations, if_pos hc]

/-! ### Claim C4: registration chunking -/

/-- C4 (counterexample): for an equation whose expression has length 0,
`configure_equations` with a connected peer emits no chunk at all — the
inner loop `for (int i = 0; i < equation_len; i += 17)` never runs — so
"at least one chunk is emitted even when L = 0" is false. -/
theorem c4_empty_expression_emits_no_chunk :
    ¬ (1 ≤ ((configure_equations ⟨[Equation.make [] 1], .STARTED⟩
        ⟨1, none, [], []⟩).2.sentConfig).length) := by
  rw [configure_equations_of_pos _ _ (by decide) (by decide)]
  simp [allChunks_singleton, Equation.make]
  rw [eqChunksAux]
  simp

/-- C4 (amended): for every expression text of length `L ∈ {0, 1, 17,
18, 34, 35}`, `configure_equations` with a peer connected emits chunks
whose sequence bytes are `0, 1, 2, …`, each carrying at most 17 text
bytes, with the last and only the last chunk of kind 3 and all earlier
ones of kind 2 whenever `L ≠ 0`, and whose fragments concatenated in
sequence order reproduce the expression exactly; for `L = 0` no chunk
at all is emitted (the concatenation of zero fragments still being the
empty expression). -/
theorem c4_chunking_round_trip (text : List Nat) (scale : ℚ)
    (h : text.length ∈ ([0, 1, 17, 18, 34, 35] : List Nat)) :
    ChunkSpec ((configure_equations ⟨[Equation.make text scale], .STARTED⟩
        ⟨1, none, [], []⟩).2.sentConfig) text := by
  have hL : text.length ≤ 35 := by
    simp only [List.mem_cons, List.not_mem_nil, or_false] at h
    omega
  rw [configure_equations_of_pos _ _ (by decide) (by simp)]
  simp only [allChunks_singleton, Equation.make, List.nil_append]
  have hn : (eqChunksAux 0 text 0 0).length ≤ 3 := by
    rw [eqChunksAux_length]; omega
  refine ⟨?_, eqChunksAux_frag_le 0 text 0 0, ?_, ?_, ?_⟩
  · have := eqChunksAux_join 0 text 0 0
    simpa using this
  · rw [eqChunksAux_seqs, ← List.range_eq_range']
    have hcong : ∀ a ∈ List.range (eqChunksAux 0 text 0 0).length,
        a % 256 = id a := by
      intro a ha
      exact Nat.mod_eq_of_lt (lt_of_lt_of_le (List.mem_range.mp ha) (by omega))
    rw [List.map_congr_left hcong, List.map_id]
  · intro h0
    rw [eqChunksAux, dif_neg (by omega)]
  · intro h0
    refine ⟨eqChunksAux_kinds 0 text 0 0 (by omega), ?_⟩
    rw [eqChunksAux_length]
    omega

/-- Witness for C4 at the concrete 18-byte expression `List.range 18`. -/
theorem c4_chunking_round_trip_witness :
    (List.range 18).length ∈ ([0, 1, 17, 18, 34, 35] : List Nat)
    ∧ ChunkSpec ((configure_equations ⟨[Equation.make (List.range 18) 1], .STARTED⟩
        ⟨1, none, [], []⟩).2.sentConfig) (List.range 18) :=
  ⟨by decide, c4_chunking_round_trip (List.range 18) 1 (by decide)⟩

/-! ### Claim C5: timer fire in `STARTED` -/

/-- C5 (counterexample): after a timer fire in `STARTED`, the pending
deadline is not `TIMEOUT_INIT_MS`: the `attach_ms(TIMEOUT_INIT_MS, …)`
in `timeout_state` is immediately replaced by the
`timeout_reset(false)` at the end of `configure_equations`, which
re-arms at `TIMEOUT_REFRESH_MS`. -/
theorem c5_deadline_not_init :
    (timeout_state ⟨[], .STARTED⟩ ⟨1, none, [], []⟩).2.timerDeadline
      ≠ some TIMEOUT_INIT_MS := by
  decide

/-- C5 (amended): for every Monitor in state `STARTED` with a peer
connected, a timer fire resends the full registration and leaves the
state `STARTED`, but the deadline pending after the handler returns is
`TIMEOUT_REFRESH_MS` (1500 ms), not `TIMEOUT_INIT_MS`: the arm at
`TIMEOUT_INIT_MS` is superseded inside `configure_equations`. -/
theorem c5_started_timer_fire (m : Monitor) (env : BLEEnv)
    (hs : m.state = .STARTED) (hc : env.connectedCount ≠ 0) :
    (timeout_state m env).1 = m
    ∧ (timeout_state m env).1.state = .STARTED
    ∧ (timeout_state m env).2.timerDeadline = some TIMEOUT_REFRESH_MS
    ∧ (timeout_state m env).2.sentConfig = env.sentConfig ++ allChunks m.eqs := by
  obtain ⟨eqs, st⟩ := m
  simp only [Monitor.state] at hs
  subst hs
  simp only [timeout_state]
  rw [configure_equations_of_pos ⟨eqs, .STARTED⟩
    { env with timerDeadline := some TIMEOUT_INIT_MS } hc (by simp)]
  simp

/-- Witness for C5 at a concrete `STARTED` monitor with one peer. -/
theorem c5_started_timer_fire_witness :
    ((⟨[], .STARTED⟩ : Monitor).state = .STARTED
      ∧ (⟨1, none, [], []⟩ : BLEEnv).connectedCount ≠ 0)
    ∧ ((timeout_state ⟨[], .STARTED⟩ ⟨1, none, [], []⟩).1 = (⟨[], .STARTED⟩ : Monitor)
      ∧ (timeout_state ⟨[], .STARTED⟩ ⟨1, none, [], []⟩).1.state = .STARTED
      ∧ (timeout_state ⟨[], .STARTED⟩ ⟨1, none, [], []⟩).2.timerDeadline
          = some TIMEOUT_REFRESH_MS
      ∧ (timeout_state ⟨[], .STARTED⟩ ⟨1, none, [], []⟩).2.sentConfig
          = ([] : List (List Nat)) ++ allChunks []) :=
  ⟨⟨rfl, by decide⟩,
    c5_started_timer_fire ⟨[], .STARTED⟩ ⟨1, none, [], []⟩ rfl (by decide)⟩

/-! ### Claim C1: `reset()` and equation values -/

/-- C1 (code bug): `Monitor::reset()` is documented in the source as
resetting "all our stored values", and the claim says every equation's
value is `NoData` after `reset()`; but the C++ loop `for (auto eq :
eqs) \x7b eq.clear(); \x7d` clears by-value copies, so on a monitor
whose single equation holds value 5 the value is still 5 — not
`NoData` — after one and after two calls to `reset()`, while the
session state does become `STARTED` both times. -/
theorem c1_reset_leaves_values_unchanged :
    ((reset ⟨[⟨1, [], .Val 5⟩], .ACTIVE⟩ ⟨0, none, [], []⟩).1.state = .STARTED
      ∧ (reset ⟨[⟨1, [], .Val 5⟩], .ACTIVE⟩ ⟨0, none, [], []⟩).1.eqs.map Equation.value
          = [.Val 5]
      ∧ (reset ⟨[⟨1, [], .Val 5⟩], .ACTIVE⟩ ⟨0, none, [], []⟩).1.eqs.map Equation.value
          ≠ [.NoData])
    ∧ ((reset (reset ⟨[⟨1, [], .Val 5⟩], .ACTIVE⟩ ⟨0, none, [], []⟩).1
          (reset ⟨[⟨1, [], .Val 5⟩], .ACTIVE⟩ ⟨0, none, [], []⟩).2).1.state = .STARTED
      ∧ (reset (reset ⟨[⟨1, [], .Val 5⟩], .ACTIVE⟩ ⟨0, none, [], []⟩).1
          (reset ⟨[⟨1, [], .Val 5⟩], .ACTIVE⟩ ⟨0, none, [], []⟩).2).1.eqs.map Equation.value
          = [.Val 5]) := by
  decide

/-! ### Claims C2 and C3: inbound value-record decoding -/

/-- C2 (code bug): an inbound value record whose channel id (5) does
not index a configured equation is not dropped: the handler performs
the unchecked vector access `eqs[5]` on a one-equation monitor, an
out-of-bounds access modelled as `none`.  The claim's checked,
record-dropping behaviour does not hold. -/
theorem c2_out_of_range_channel_crashes :
    monNotifyOnWrite ⟨[Equation.make [] 1], .STARTED⟩ ⟨1, none, [], []⟩
      [5, 0, 0, 0, 0] = none := by
  simp [monNotifyOnWrite, decodeLoop, Equation.make]

/-- C3 (code bug): on a 6-byte payload the handler does not stop after
`⌊6/5⌋ = 1` record: the loop condition `i < length` (rather than
`i + 5 ≤ length`) starts a second record at offset 5, reading the
trailing byte as a channel id and bytes 6…9 past the end of the
payload, modelled as `none`.  The trailing `n mod 5` bytes are not
silently ignored. -/
theorem c3_partial_record_read_past_end :
    monNotifyOnWrite ⟨[Equation.make [] 1], .STARTED⟩ ⟨1, none, [], []⟩
      [0, 0, 0, 0, 42, 9] = none := by
  simp [monNotifyOnWrite, decodeLoop, Equation.make, toInt32,
    Equation.update_from_raw, INT32_MAX]

/-! ### Claim C6: no peer connected -/

/-- C6: whenever the connected-peer count is 0, every Monitor-engine
entry point delivers zero bytes on the transport: `configure_equations`
only re-arms the timer (at `TIMEOUT_REFRESH_MS`) without sending,
`update_all` is a silent no-op, `reset` sends no Reset command, a timer
fire in any state sends nothing, and both inbound write handlers send
nothing. -/
theorem c6_no_peer_silent (m : Monitor) (env : BLEEnv) (payload : List Nat)
    (hc : env.connectedCount = 0) :
    ((configure_equations m env).2.sentConfig = env.sentConfig
      ∧ (configure_equations m env).2.sentMain = env.sentMain)
    ∧ (m.state ≠ .UNINITIALIZED →
        (configure_equations m env).2.timerDeadline = some TIMEOUT_REFRESH_MS)
    ∧ update_all env = env
    ∧ ((reset m env).2.sentConfig = env.sentConfig
      ∧ (reset m env).2.sentMain = env.sentMain)
    ∧ ((timeout_state m env).2.sentConfig = env.sentConfig
      ∧ (timeout_state m env).2.sentMain = env.sentMain)
    ∧ ((monConfigOnWrite m env payload).2.sentConfig = env.sentConfig
      ∧ (monConfigOnWrite m env payload).2.sentMain = env.sentMain)
    ∧ (∀ r, monNotifyOnWrite m env payload = some r →
        r.2.sentConfig = env.sentConfig ∧ r.2.sentMain = env.sentMain) := by
  have hconf : ∀ (m' : Monitor) (env' : BLEEnv), env'.connectedCount = 0 →
      (configure_equations m' env').2.sentConfig = env'.sentConfig
      ∧ (configure_equations m' env').2.sentMain = env'.sentMain := by
    intro m' env' h0
    rw [configure_equations_of_zero m' env' h0]
    exact ⟨(timeout_reset_frame m' env' false).2.1,
      (timeout_reset_frame m' env' false).2.2.1⟩
  have hreset : ∀ (m' : Monitor) (env' : BLEEnv), env'.connectedCount = 0 →
      (reset m' env').2.sentConfig = env'.sentConfig
      ∧ (reset m' env').2.sentMain = env'.sentMain := by
    intro m' env' h0
    rw [reset, if_neg (by omega)]
    exact hconf _ _ h0
  refine ⟨hconf m env hc, ?_, ?_, hreset m env hc, ?_, ?_, ?_⟩
  · intro hs
    rw [configure_equations_of_zero m env hc, timeout_reset_of_ne m env false hs]
  · rw [update_all, indicate_of_zero env [4] hc]
  · obtain ⟨eqs, st⟩ := m
    cases st
    · exact ⟨rfl, rfl⟩
    · simp only [timeout_state]
      exact hconf _ _ hc
    · simp only [timeout_state]
      rw [update_all, indicate_of_zero
        { env with timerDeadline := some (TIMEOUT_RESET_MS - TIMEOUT_REFRESH_MS) } [4] hc]
      exact ⟨rfl, rfl⟩
    · simp only [timeout_state]
      exact hreset _ _ hc
  · rw [monConfigOnWrite]
    split
    · exact ⟨(timeout_reset_frame m env true).2.1,
        (timeout_reset_frame m env true).2.2.1⟩
    · exact ⟨rfl, rfl⟩
  · intro r hr
    rw [monNotifyOnWrite] at hr
    split at hr
    · exact absurd hr (by simp)
    · rename_i eqs2 heq
      have : r = timeout_reset { m with eqs := eqs2 } env true := by
        injection hr with h2
        exact h2.symm
      subst this
      exact ⟨(timeout_reset_frame _ env true).2.1,
        (timeout_reset_frame _ env true).2.2.1⟩

/-- Witness for C6 at a concrete disconnected environment. -/
theorem c6_no_peer_silent_witness :
    ((⟨0, none, [], []⟩ : BLEEnv).connectedCount = 0)
    ∧ (((configure_equations ⟨[], .STARTED⟩ ⟨0, none, [], []⟩).2.sentConfig = []
      ∧ (configure_equations ⟨[], .STARTED⟩ ⟨0, none, [], []⟩).2.sentMain = [])
    ∧ ((⟨[], .STARTED⟩ : Monitor).state ≠ .UNINITIALIZED →
        (configure_equations ⟨[], .STARTED⟩ ⟨0, none, [], []⟩).2.timerDeadline
          = some TIMEOUT_REFRESH_MS)
    ∧ update_all ⟨0, none, [], []⟩ = (⟨0, none, [], []⟩ : BLEEnv)
    ∧ ((reset ⟨[], .STARTED⟩ ⟨0, none, [], []⟩).2.sentConfig = []
      ∧ (reset ⟨[], .STARTED⟩ ⟨0, none, [], []⟩).2.sentMain = [])
    ∧ ((timeout_state ⟨[], .STARTED⟩ ⟨0, none, [], []⟩).2.sentConfig = []
      ∧ (timeout_state ⟨[], .STARTED⟩ ⟨0, none, [], []⟩).2.sentMain = [])
    ∧ ((monConfigOnWrite ⟨[], .STARTED⟩ ⟨0, none, [], []⟩ [0, 0]).2.sentConfig = []
      ∧ (monConfigOnWrite ⟨[], .STARTED⟩ ⟨0, none, [], []⟩ [0, 0]).2.sentMain = [])
    ∧ (∀ r, monNotifyOnWrite ⟨[], .STARTED⟩ ⟨0, none, [], []⟩ [0, 0] = some r →
        r.2.sentConfig = [] ∧ r.2.sentMain = [])) :=
  ⟨rfl, c6_no_peer_silent ⟨[], .STARTED⟩ ⟨0, none, [], []⟩ [0, 0] rfl⟩

/-! ### Claim C7: ack handling in `STARTED` -/

/-- C7: in state `STARTED`, an inbound config-channel write whose
payload is exactly 2 bytes with first byte 0 re-arms the timer at
`TIMEOUT_REFRESH_MS` and advances the state to `ACTIVE`; a write of any
other length or first byte leaves monitor and environment untouched. -/
theorem c7_ack_advances_started (m : Monitor) (env : BLEEnv) (x : Nat)
    (hs : m.state = .STARTED) :
    monConfigOnWrite m env [0, x]
      = ({ m with state := .ACTIVE },
         { env with timerDeadline := some TIMEOUT_REFRESH_MS })
    ∧ (∀ p : List Nat, ¬ (p.length = 2 ∧ p.getD 0 0 = 0) →
        monConfigOnWrite m env p = (m, env)) := by
  constructor
  · rw [monConfigOnWrite, if_pos (by simp)]
    rw [timeout_reset_of_ne m env true (by rw [hs]; simp)]
    simp
  · intro p hp
    rw [monConfigOnWrite, if_neg hp]

/-- Witness for C7 at a concrete ack `[0, 7]`. -/
theorem c7_ack_advances_started_witness :
    ((⟨[], .STARTED⟩ : Monitor).state = .STARTED)
    ∧ (monConfigOnWrite ⟨[], .STARTED⟩ ⟨1, none, [], []⟩ [0, 7]
        = (⟨[], .ACTIVE⟩, ⟨1, some TIMEOUT_REFRESH_MS, [], []⟩)
      ∧ (∀ p : List Nat, ¬ (p.length = 2 ∧ p.getD 0 0 = 0) →
          monConfigOnWrite ⟨[], .STARTED⟩ ⟨1, none, [], []⟩ p
            = (⟨[], .STARTED⟩, ⟨1, none, [], []⟩))) :=
  ⟨rfl, c7_ack_advances_started ⟨[], .STARTED⟩ ⟨1, none, [], []⟩ 7 rfl⟩

/-! ### Claim C8: `update_from_raw` -/

/-- C8: for every equation with scale `s > 0` (so `scale_inv = 1/s`)
and every 32-bit signed `r`, `update_from_raw INT32_MAX` yields
`NoData` regardless of the scale, `update_from_raw r` for
`r ≠ INT32_MAX` yields exactly `r / s` (the code computing
`r * (1/s)`, equal in exact arithmetic), and the call changes nothing
but the value. -/
theorem c8_update_from_raw_pure (eq : Equation) (s : ℚ) (hs : 0 < s)
    (hinv : eq.scale_inv = 1 / s) (r : Int)
    (hr : -(2 ^ 31) ≤ r ∧ r < 2 ^ 31) :
    (eq.update_from_raw INT32_MAX).value = .NoData
    ∧ (r ≠ INT32_MAX → (eq.update_from_raw r).value = .Val ((r : ℚ) / s))
    ∧ (eq.update_from_raw r).equation = eq.equation
    ∧ (eq.update_from_raw r).scale_inv = eq.scale_inv := by
  refine ⟨?_, ?_, rfl, rfl⟩
  · simp [Equation.update_from_raw]
  · intro hne
    simp [Equation.update_from_raw, hne, hinv, div_eq_mul_inv]

/-- Witness for C8 at scale 2 and raw value 10. -/
theorem c8_update_from_raw_pure_witness :
    (0 < (2 : ℚ) ∧ (Equation.make [] 2).scale_inv = 1 / 2
      ∧ (-(2 ^ 31) ≤ (10 : Int) ∧ (10 : Int) < 2 ^ 31) ∧ (10 : Int) ≠ INT32_MAX)
    ∧ (((Equation.make [] 2).update_from_raw INT32_MAX).value = .NoData
      ∧ ((Equation.make [] 2).update_from_raw 10).value = .Val ((10 : ℚ) / 2)
      ∧ ((Equation.make [] 2).update_from_raw 10).equation = (Equation.make [] 2).equation
      ∧ ((Equation.make [] 2).update_from_raw 10).scale_inv
          = (Equation.make [] 2).scale_inv) := by
  have h := c8_update_from_raw_pure (Equation.make [] 2) 2 (by norm_num) rfl 10
    (by constructor <;> decide)
  exact ⟨⟨by norm_num, rfl, ⟨by decide, by decide⟩, by decide⟩,
    h.1, h.2.1 (by decide), h.2.2.1, h.2.2.2⟩

/-! ### Claim C9: CAN-spoof frames -/

/-- C9: `CANSpoof::update(id, data)` is a no-op with no peer connected,
and otherwise publishes exactly the 5-byte frame with `id` little-endian
in bytes 0–3 (`(id >> 8k) & 0xFF = id / 2^(8k) % 256`) and `data` in
byte 4; in particular `update(0x123, 7)` with a connected peer produces
`[0x23, 0x01, 0x00, 0x00, 0x07]`. -/
theorem c9_canspoof_update (env : BLEEnv) (id data : Nat) (hd : data < 256) :
    (env.connectedCount = 0 → canspoof_update env id data = env)
    ∧ (env.connectedCount ≠ 0 →
        (canspoof_update env id data).sentMain
          = env.sentMain
            ++ [[id % 256, id / 2 ^ 8 % 256, id / 2 ^ 16 % 256, id / 2 ^ 24 % 256, data]])
    ∧ (canspoof_update ⟨1, none, [], []⟩ 0x123 7).sentMain
        = [[0x23, 0x01, 0x00, 0x00, 0x07]] := by
  refine ⟨?_, ?_, by decide⟩
  · intro h
    simp [canspoof_update, h]
  · intro h
    simp [canspoof_update, notify, h, Nat.shiftRight_eq_div_pow, Nat.mod_eq_of_lt hd]

/-- Witness for C9 at `id = 0x123`, `data = 7`, one peer connected. -/
theorem c9_canspoof_update_witness :
    (7 : Nat) < 256
    ∧ ((⟨1, none, [], []⟩ : BLEEnv).connectedCount ≠ 0 →
        (canspoof_update ⟨1, none, [], []⟩ 0x123 7).sentMain
          = [] ++ [[0x123 % 256, 0x123 / 2 ^ 8 % 256, 0x123 / 2 ^ 16 % 256,
              0x123 / 2 ^ 24 % 256, 7]])
    ∧ (canspoof_update ⟨1, none, [], []⟩ 0x123 7).sentMain
        = [[0x23, 0x01, 0x00, 0x00, 0x07]] :=
  ⟨by decide, (c9_canspoof_update ⟨1, none, [], []⟩ 0x123 7 (by decide)).2.1,
    (c9_canspoof_update ⟨1, none, [], []⟩ 0x123 7 (by decide)).2.2⟩

/-! ### Claim C10: value writes advance `STARTED` to `ACTIVE` -/

/-- C10 (implicit behaviour): in state `STARTED`, an inbound value
write whose records all decode (no out-of-range channel, no partial
record) ends in `timeout_reset()` with its default
`update_state = true`, so — exactly like a successful ack — it re-arms
the timer at `TIMEOUT_REFRESH_MS` AND advances the state to `ACTIVE`,
making `data_valid()` true without any ack on the config channel. -/
theorem c10_value_write_advances_started (m : Monitor) (env : BLEEnv)
    (payload : List Nat) (eqs2 : List Equation)
    (hs : m.state = .STARTED)
    (hd : decodeLoop m.eqs payload 0 = some eqs2) :
    monNotifyOnWrite m env payload
      = some (⟨eqs2, .ACTIVE⟩, { env with timerDeadline := some TIMEOUT_REFRESH_MS })
    ∧ data_valid ⟨eqs2, .ACTIVE⟩ = true := by
  refine ⟨?_, rfl⟩
  have h1 : monNotifyOnWrite m env payload
      = some (timeout_reset { m with eqs := eqs2 } env true) := by
    rw [monNotifyOnWrite, hd]
  rw [h1, timeout_reset_of_ne { m with eqs := eqs2 } env true (by simp [hs])]
  simp

/-- Witness for C10 at a concrete one-record value write. -/
theorem c10_value_write_advances_started_witness :
    ((⟨[Equation.make [] 1], .STARTED⟩ : Monitor).state = .STARTED
      ∧ decodeLoop [Equation.make [] 1] [0, 0, 0, 0, 42] 0
          = some [⟨1, [], .Val 42⟩])
    ∧ (monNotifyOnWrite ⟨[Equation.make [] 1], .STARTED⟩ ⟨1, none, [], []⟩ [0, 0, 0, 0, 42]
        = some (⟨[⟨1, [], .Val 42⟩], .ACTIVE⟩, ⟨1, some TIMEOUT_REFRESH_MS, [], []⟩)
      ∧ data_valid ⟨[⟨1, [], .Val 42⟩], .ACTIVE⟩ = true) := by
  have hd : decodeLoop [Equation.make [] 1] [0, 0, 0, 0, 42] 0
      = some [⟨1, [], .Val 42⟩] := by
    simp [decodeLoop, Equation.make, toInt32, Equation.update_from_raw, INT32_MAX]
  exact ⟨⟨rfl, hd⟩,
    c10_value_write_advances_started ⟨[Equation.make [] 1], .STARTED⟩
      ⟨1, none, [], []⟩ [0, 0, 0, 0, 42] [⟨1, [], .Val 42⟩] rfl hd⟩

end ESP32RaceChrono
